import Mathlib

/-!
# Verification of the Flow Execution & Reliability Engine (skill-browser)

Shallow embedding of the core of the `skill-browser` repository:
the domain security gate (`domain-allowlist.ts`), the selector engine
(`selector-engine.ts`), the retry/backoff policy (`retry.ts`), flow
versioning and telemetry (`flow-versioning.ts`), and the step executor
(`execute.ts`, frame-aware variant).

Platform built-ins (the WHATWG `URL` hostname parser, Playwright page
operations, the param-injection substitution) are modelled as explicit
parameters of the embedded functions; every branch and computation of the
repository's own code is translated directly from the source.
-/

namespace SkillBrowser

/-! ## step-types.ts — data model -/

/-- `StepType` from `step-types.ts`, extended with the `script` kind that the
step dispatcher in `execute.ts` handles (its `switch` has a `script` case). -/
inductive StepType where
  | navigate
  | click
  | type
  | select
  | check
  | upload
  | wait
  | keypress
  | scroll
  | frameSwitch
  | tabSwitch
  | script
deriving DecidableEq, Repr

/-- `SelectorSet` from `step-types.ts`: optional addressing strategies. -/
structure SelectorSet where
  testId : Option String := none
  aria : Option String := none
  css : Option String := none
  text : Option String := none
  xpath : Option String := none
  nthMatch : Option Nat := none
deriving DecidableEq, Repr

/-- `RecordedStep` from `step-types.ts` (plus `scriptPath`, which the
executor reads on `script` steps). -/
structure RecordedStep where
  index : Nat
  timestamp : Nat := 0
  type : StepType
  selectors : SelectorSet := {}
  value : Option String := none
  key : Option String := none
  url : Option String := none
  frameSelector : Option String := none
  pageUrl : String := ""
  screenshot : Option String := none
  waitBefore : Option Nat := none
  isAuthStep : Option Bool := none
  scriptPath : Option String := none
deriving DecidableEq, Repr

/-- `FlowMetadata` from `step-types.ts`. -/
structure FlowMetadata where
  name : String
  recordedAt : String := ""
  stepsCount : Nat := 0
  version : Nat := 1
  url : String := ""
  allowedDomains : Option (List String) := none
  hasAuthFlow : Option Bool := none
deriving DecidableEq, Repr

/-- `FlowDocument` from `step-types.ts`. -/
structure FlowDocument where
  metadata : FlowMetadata
  steps : List RecordedStep
deriving DecidableEq, Repr

/-- `StepError` from `step-types.ts`. -/
structure StepError where
  step : Nat
  type : StepType
  message : String
  screenshot : String
  url : String
  retriesAttempted : Nat
deriving DecidableEq, Repr

/-- `RunResult` from `step-types.ts`. -/
structure RunResult where
  success : Bool
  confirmation : String
  flow : String
  duration_ms : Nat
  steps_completed : Nat
  steps_total : Nat
  screenshots : List String
  error : Option StepError
deriving DecidableEq, Repr

/-- `RetryConfig` from `step-types.ts` (integer-valued configuration, as used
throughout the repository and its tests). -/
structure RetryConfig where
  maxRetries : Nat
  backoffMs : Nat
  backoffMultiplier : Nat
  maxBackoffMs : Nat
deriving DecidableEq, Repr

/-! ## JavaScript string primitives

The source is TypeScript; the string methods it calls (`toLowerCase`,
`trim`, `startsWith`, `endsWith`, `slice`) are embedded as explicit
functions over the character list (ASCII case mapping, which covers
hostnames and domain patterns). -/

/-- ASCII lower-casing of one character (`String.prototype.toLowerCase`). -/
def lowerChar : Char → Char
  | 'A' => 'a'
  | 'B' => 'b'
  | 'C' => 'c'
  | 'D' => 'd'
  | 'E' => 'e'
  | 'F' => 'f'
  | 'G' => 'g'
  | 'H' => 'h'
  | 'I' => 'i'
  | 'J' => 'j'
  | 'K' => 'k'
  | 'L' => 'l'
  | 'M' => 'm'
  | 'N' => 'n'
  | 'O' => 'o'
  | 'P' => 'p'
  | 'Q' => 'q'
  | 'R' => 'r'
  | 'S' => 's'
  | 'T' => 't'
  | 'U' => 'u'
  | 'V' => 'v'
  | 'W' => 'w'
  | 'X' => 'x'
  | 'Y' => 'y'
  | 'Z' => 'z'
  | c => c

/-- `s.toLowerCase()`. -/
def jsToLower (s : String) : String := String.mk (s.data.map lowerChar)

/-- Whitespace for `String.prototype.trim`. -/
def isWsChar (c : Char) : Bool := c = ' ' || c = '\t' || c = '\n' || c = '\r'

/-- `s.trim()`. -/
def jsTrim (s : String) : String :=
  String.mk (((s.data.dropWhile isWsChar).reverse.dropWhile isWsChar).reverse)

/-- `s.startsWith(p)`. -/
def jsStartsWith (s p : String) : Bool := p.data.isPrefixOf s.data

/-- `s.endsWith(p)`. -/
def jsEndsWith (s p : String) : Bool := p.data.isSuffixOf s.data

/-- `s.slice(n)` for a nonnegative `n`. -/
def jsDrop (s : String) (n : Nat) : String := String.mk (s.data.drop n)

/-! ## domain-allowlist.ts — navigation security gate

`new URL(url).hostname` is a platform built-in; it is modelled by an explicit
parameter `hostOf : String → Option String` (`none` models the `catch` branch
for an unparseable URL). Everything else is translated line by line. -/

/-- One iteration of the `for (const pattern of allowedDomains)` loop of
`isDomainAllowed`: does `hostname` (already lowercased) match `pattern`? -/
def patternMatches (hostname : String) (pattern : String) : Bool :=
  let lower := jsTrim (jsToLower pattern)
  if jsStartsWith lower "*." then
    let domain := jsDrop lower 2
    hostname == domain || jsEndsWith hostname ("." ++ domain)
  else
    hostname == lower

/-- `isDomainAllowed` from `domain-allowlist.ts`. -/
def isDomainAllowed (hostOf : String → Option String) (url : String)
    (allowedDomains : List String) : Bool :=
  if allowedDomains.isEmpty then true
  else
    match hostOf url with
    | none => false
    | some raw =>
      let hostname := jsToLower raw
      allowedDomains.any (fun pattern => patternMatches hostname pattern)

/-- The error message thrown by `assertDomainAllowed`. -/
def securityMessage (url : String) (allowedDomains : List String)
    (flowName : String) : String :=
  let joined := String.intercalate ", " allowedDomains
  "[SECURITY] Navigation to " ++ url ++
    " is blocked by the domain allowlist for flow \"" ++ flowName ++
    "\". Allowed domains: " ++ joined

/-- `assertDomainAllowed` from `domain-allowlist.ts`: `()` or a thrown error. -/
def assertDomainAllowed (hostOf : String → Option String) (url : String)
    (allowedDomains : List String) (flowName : String) : Except String Unit :=
  if isDomainAllowed hostOf url allowedDomains then .ok ()
  else .error (securityMessage url allowedDomains flowName)

/-- Drop everything up to and including the first `://`; `none` when there
is no such separator. -/
def dropScheme : List Char → Option (List Char)
  | ':' :: '/' :: '/' :: rest => some rest
  | _ :: rest => dropScheme rest
  | [] => none

/-- A small model of the platform URL parser, used only to instantiate
concrete examples: extracts the host of `scheme://host[:port][/...]`. -/
def simpleHost (url : String) : Option String :=
  match dropScheme url.toList with
  | none => none
  | some rest =>
    let hostPort := rest.takeWhile (fun c => c ≠ '/' && c ≠ '?' && c ≠ '#')
    let host := hostPort.takeWhile (fun c => c ≠ ':')
    if host.isEmpty then none else some (String.mk host)

/-- The spec's matching rule for one allowlist entry, written from the
spec's words for comparison with the code: the hostname (lowercased) equals
the entry (case-insensitively), where an entry of the form `*.<domain>`
instead matches the bare domain itself and any subdomain. -/
def specEntryMatches (hostname entry : String) : Bool :=
  let lower := jsToLower entry
  if jsStartsWith lower "*." then
    let domain := jsDrop lower 2
    hostname == domain || jsEndsWith hostname ("." ++ domain)
  else
    hostname == lower

/-- `sub` occurs contiguously inside `s`. -/
def strContains (s sub : String) : Prop :=
  ∃ pre post, s.data = pre ++ (sub.data ++ post)

/-! ## selector-engine.ts — priority ordering -/

/-- `prioritizedSelectors` from `selector-engine.ts`: the fixed resolution
order testId, aria, text (with `text=` prefixed), css, xpath (with `xpath=`
prefixed), skipping absent strategies. -/
def prioritizedSelectors (selectors : SelectorSet) : List String :=
  (match selectors.testId with | some t => [t] | none => []) ++
  (match selectors.aria with | some a => [a] | none => []) ++
  (match selectors.text with | some t => ["text=" ++ t] | none => []) ++
  (match selectors.css with | some c => [c] | none => []) ++
  (match selectors.xpath with | some x => ["xpath=" ++ x] | none => [])

/-- `bestSelector` from `selector-engine.ts`. -/
def bestSelector (selectors : SelectorSet) : String :=
  (prioritizedSelectors selectors).headD "body"

/-! ## retry.ts — backoff and bounded retry -/

/-- `DEFAULT_RETRY_CONFIG` from `retry.ts`. -/
def DEFAULT_RETRY_CONFIG : RetryConfig :=
  { maxRetries := 3, backoffMs := 500, backoffMultiplier := 2, maxBackoffMs := 8000 }

/-- `calcBackoff` from `retry.ts`. -/
def calcBackoff (attempt : Nat) (config : RetryConfig) : Nat :=
  let delay := config.backoffMs * config.backoffMultiplier ^ attempt
  min delay config.maxBackoffMs

/-- The three decisions an `OnStepFail` callback may return. -/
inductive FailAction where
  | retry
  | skip
  | abort
deriving DecidableEq, Repr

/-- The loop of `withRetry` from `retry.ts`. `fn attempt` is the outcome of
the wrapped operation on that attempt; `cb` is the `onStepFail` callback (an
absent callback is `fun _ _ => .retry`, matching `?? 'retry'`); `fuel` is the
number of loop iterations still to run (`maxRetries + 1 - attempt`); `last`
carries `lastError`.  The result pairs the returned value (`ok none` models
the `return null` of a skip) with the number of invocations of `fn`. -/
def withRetryGo {E T : Type} (fn : Nat → Except E T) (cb : Nat → E → FailAction)
    (maxRetries : Nat) : Nat → Nat → E → Except E (Option T) × Nat
  | _, 0, last => (.error last, 0)
  | attempt, fuel + 1, _ =>
    match fn attempt with
    | .ok t => (.ok (some t), 1)
    | .error e =>
      if attempt < maxRetries then
        match cb attempt e with
        | .abort => (.error e, 1)
        | .skip => (.ok none, 1)
        | .retry =>
          let r := withRetryGo fn cb maxRetries (attempt + 1) fuel e
          (r.1, r.2 + 1)
      else
        (.error e, 1)

/-- `withRetry` from `retry.ts`: run from attempt 0 with `maxRetries + 1`
loop iterations; `e0` is the initial `lastError` (`'Unknown error'`). -/
def withRetry {E T : Type} (fn : Nat → Except E T) (cb : Nat → E → FailAction)
    (config : RetryConfig) (e0 : E) : Except E (Option T) × Nat :=
  withRetryGo fn cb config.maxRetries 0 (config.maxRetries + 1) e0

/-- The first selector of `candidates` for which `vis` holds — the inner
`for (const selector of ordered)` loop of `resilientLocator`, where
`vis sel` is the outcome of `locator.waitFor visible` for `sel`. -/
def firstVisible (vis : String → Bool) : List String → Option String
  | [] => none
  | sel :: rest => if vis sel then some sel else firstVisible vis rest

/-- The error message built by `resilientLocator` after a round with no
visible candidate. -/
def noSelectorMessage (ordered : List String) : String :=
  let joined := String.intercalate ", " ordered
  "No selector matched for step. Tried: " ++ joined

/-- The retry loop of `resilientLocator` from `retry.ts`: each round tries
every candidate in order (`vis round sel` is the visibility outcome of `sel`
during `round`); a round with no visible candidate is retried after backoff,
and when all `maxRetries + 1` rounds are exhausted the last error is thrown —
there is no fallback to the first candidate at page level. -/
def resilientLocatorGo (vis : Nat → String → Bool) (ordered : List String) :
    Nat → Nat → Except String String
  | _, 0 => .error (noSelectorMessage ordered)
  | round, fuel + 1 =>
    match firstVisible (vis round) ordered with
    | some sel => .ok sel
    | none => resilientLocatorGo vis ordered (round + 1) fuel

/-- `resilientLocator` from `retry.ts` (page-level resolution). -/
def resilientLocator (vis : Nat → String → Bool) (selectors : SelectorSet)
    (config : RetryConfig) : Except String String :=
  resilientLocatorGo vis (prioritizedSelectors selectors) 0 (config.maxRetries + 1)

/-! ## flow-versioning.ts — telemetry aggregate and rollback

There are two copies of `flow-versioning.ts` in the repository; they agree on
`recordRunResult` and `archiveCurrentScript` and differ in `rollback`.  The
variant embedded here is the one the spec describes: the time-weighted scored
rollback (the copy bundled alongside `cdp-recorder.ts`).

File-system state is modelled explicitly: `savedAt` ISO timestamps are
modelled as integer milliseconds (what `new Date(v.savedAt).getTime()`
yields), success rates as exact rationals, and `Math.round` as Mathlib's
`round` (both are `⌊x + 1/2⌋`). -/

/-- `FlowVersion` from `step-types.ts` (`savedAt` in epoch milliseconds). -/
structure FlowVersion where
  version : Nat
  savedAtMs : Int
  scriptFile : String
  successRate : Option ℚ := none
  runCount : Option Nat := none
deriving DecidableEq, Repr

/-- The update `recordRunResult` applies to the latest version:
`runs = (runCount ?? 0) + 1`, `prevSuccesses = Math.round((successRate ?? 0)
* (runs - 1))`, `successRate = (prevSuccesses + (success ? 1 : 0)) / runs`. -/
def recordRunUpdate (success : Bool) (latest : FlowVersion) : FlowVersion :=
  let oldRuns : Nat := latest.runCount.getD 0
  let runs : Nat := oldRuns + 1
  let prevSuccesses : Int := round ((latest.successRate.getD 0) * (oldRuns : ℚ))
  let newSuccesses : Int := prevSuccesses + (if success then 1 else 0)
  { latest with
      runCount := some runs
      successRate := some ((newSuccesses : ℚ) / (runs : ℚ)) }

/-- `recordRunResult` from `flow-versioning.ts`: update the last entry of the
version history (no-op on an empty history). -/
def recordRunResult (success : Bool) (history : List FlowVersion) :
    List FlowVersion :=
  match history.getLast? with
  | none => history
  | some latest => history.dropLast ++ [recordRunUpdate success latest]

/-- The recency term of the rollback score:
`max(0, 1 - ageMs / (30 days in ms))`. -/
def recencyScore (nowMs : Int) (v : FlowVersion) : ℚ :=
  let ageMs : Int := nowMs - v.savedAtMs
  let maxAgeMs : Int := 30 * 24 * 60 * 60 * 1000
  max 0 (1 - (ageMs : ℚ) / (maxAgeMs : ℚ))

/-- The rollback score `0.7 * successRate + 0.3 * recency`. -/
def versionScore (nowMs : Int) (v : FlowVersion) : ℚ :=
  7 / 10 * (v.successRate.getD 0) + 3 / 10 * recencyScore nowMs v

/-- `scored.sort((a, b) => b.score - a.score); scored[0]` — with a stable
descending sort this is the first entry attaining the maximal score. -/
def selectRollbackTarget (nowMs : Int) : List FlowVersion → Option FlowVersion
  | [] => none
  | v :: rest =>
    some (rest.foldl
      (fun best w =>
        if versionScore nowMs w > versionScore nowMs best then w else best) v)

/-- The per-flow files `rollback` and `archiveCurrentScript` touch:
the version history (`versions.json`), the active script (`script.ts`,
`none` when missing) and the archived script files, by name. -/
structure FlowStore where
  history : List FlowVersion
  script : Option String
  archiveFiles : List (String × String)
deriving DecidableEq, Repr

/-- Look a file up by name. -/
def fileContent (files : List (String × String)) (name : String) :
    Option String :=
  (files.find? (fun p => p.1 == name)).map (fun p => p.2)

/-- Write a file (overwriting an existing one of the same name). -/
def setFile (files : List (String × String)) (name content : String) :
    List (String × String) :=
  if files.any (fun p => p.1 == name) then
    files.map (fun p => if p.1 == name then (name, content) else p)
  else
    files ++ [(name, content)]

/-- `archiveCurrentScript` from `flow-versioning.ts`: when `script.ts`
exists, copy it to `script.v<n>.ts` and append a fresh history entry
(`successRate` unset, `runCount` 0); returns the code's return value and the
updated store. -/
def archiveCurrentScript (nowMs : Int) (st : FlowStore) : Nat × FlowStore :=
  match st.script with
  | none => (1, st)
  | some content =>
    let nextVersion := ((st.history.getLast?.map (fun v => v.version)).getD 0) + 1
    let archiveName := "script.v" ++ toString nextVersion ++ ".ts"
    let entry : FlowVersion :=
      { version := nextVersion
        savedAtMs := nowMs
        scriptFile := archiveName
        successRate := none
        runCount := some 0 }
    (nextVersion + 1,
      { st with
          history := st.history ++ [entry]
          archiveFiles := setFile st.archiveFiles archiveName content })

/-- `rollback` from the scored `flow-versioning.ts` variant: pick the
highest-scoring version, bail out (`false`) when the history is empty or the
target's archive file is missing, otherwise archive the current script first
and then restore the target's file as `script.ts`. -/
def rollback (nowMs : Int) (st : FlowStore) : Bool × FlowStore :=
  match selectRollbackTarget nowMs st.history with
  | none => (false, st)
  | some target =>
    if (fileContent st.archiveFiles target.scriptFile).isSome then
      let st1 := (archiveCurrentScript nowMs st).2
      (true, { st1 with script := fileContent st1.archiveFiles target.scriptFile })
    else
      (false, st)

/-! ## execute.ts — step dispatcher and run loop (frame-aware variant)

The repository holds two divergent copies of `execute.ts`; following the
spec's design note, the frame-aware one is embedded (the copy whose
`executeStep` threads `activeFrameSelector`).

Browser effects are oracles: `vis` outcomes for element visibility waits,
an `ExecOracle` for the success or failure of each step execution, of the
auth-failure detector and of the login sub-flow, and `inject` for the
param substitution of `param-injector.ts`.  The page operations a step
performs are recorded as explicit `EngineAction` data. -/

/-- The frame-scoped branch of `resolveLocator` in `execute.ts`: try every
selector in priority order inside the active frame, first visible wins; if
none is visible fall back to the first candidate even though it is not yet
visible; fail only when the `SelectorSet` yields no candidate at all. -/
def resolveLocatorFrame (vis : String → Bool) (frameSel : String)
    (selectors : SelectorSet) : Except String String :=
  let selectorList := prioritizedSelectors selectors
  match firstVisible vis selectorList with
  | some sel => .ok sel
  | none =>
    match selectorList with
    | sel0 :: _ => .ok sel0
    | [] => .error ("No selector matched in frame \"" ++ frameSel ++ "\" for step")

/-- Where an element was resolved. -/
inductive ResolveScope where
  | frame (sel : String)
  | page
deriving DecidableEq, Repr

/-- `resolveLocator` from `execute.ts`: frame-scoped resolution (with the
not-yet-visible fallback) when a frame scope is active, `resilientLocator`
at page top level otherwise. -/
def resolveLocator (visFrame : String → Bool) (visPage : Nat → String → Bool)
    (config : RetryConfig) (activeFrameSelector : Option String)
    (selectors : SelectorSet) : Except String (ResolveScope × String) :=
  match activeFrameSelector with
  | some f => (resolveLocatorFrame visFrame f selectors).map (fun sel => (.frame f, sel))
  | none => (resilientLocator visPage selectors config).map (fun sel => (.page, sel))

/-- The page/element operations `executeStep` performs, as data.  Element
operations carry the frame scope their locator was resolved in. -/
inductive EngineAction where
  | goto (url : String)
  | locate (scope : Option String) (selectors : SelectorSet)
  | click
  | fill (value : String)
  | selectOption (value : String)
  | checkBox
  | setInputFiles (path : String)
  | pressKey (key : String)
  | wheel (deltaY : Int)
  | waitForPage
  | waitVisible (scope : Option String) (sel : String)
  | waitForURL (url : String)
  | waitNetworkIdle
  | runScript (path : String)
deriving DecidableEq, Repr

/-- The frame-scope result of `executeStep` from `execute.ts`: a
`frame-switch` step returns `step.frameSelector ?? step.selectors?.css ??
null`; every other case returns `activeFrameSelector` unchanged. -/
def frameAfter (step : RecordedStep) (activeFrameSelector : Option String) :
    Option String :=
  match step.type with
  | .frameSwitch =>
    match step.frameSelector with
    | some f => some f
    | none => step.selectors.css
  | _ => activeFrameSelector

/-- The page operations of each `executeStep` case of `execute.ts` (as
performed when the step succeeds), read off the dispatcher case by case:
the `frame-switch` case only computes the new frame selector and touches no
page or element. -/
def stepPageActions (inject : String → String) (step : RecordedStep)
    (activeFrameSelector : Option String) : List EngineAction :=
  match step.type with
  | .navigate => [.goto (inject (step.url.getD step.pageUrl))]
  | .click => [.locate activeFrameSelector step.selectors, .click]
  | .type =>
    [.locate activeFrameSelector step.selectors, .fill (inject (step.value.getD ""))]
  | .select =>
    [.locate activeFrameSelector step.selectors, .selectOption (inject (step.value.getD ""))]
  | .check => [.locate activeFrameSelector step.selectors, .checkBox]
  | .keypress => [.pressKey (step.key.getD "Enter")]
  | .scroll => [.wheel (((step.value.getD "300").toInt?).getD 0)]
  | .frameSwitch => []
  | .tabSwitch => [.waitForPage]
  | .wait =>
    let selectorList := prioritizedSelectors step.selectors
    match selectorList with
    | sel0 :: _ =>
      if sel0 ≠ "body" then [.waitVisible activeFrameSelector sel0]
      else
        match step.url with
        | some u => [.waitForURL u]
        | none => [.waitNetworkIdle]
    | [] =>
      match step.url with
      | some u => [.waitForURL u]
      | none => [.waitNetworkIdle]
  | .upload =>
    [.locate activeFrameSelector step.selectors, .setInputFiles (inject (step.value.getD ""))]
  | .script =>
    [.runScript ((match step.scriptPath with
                  | some p => some p
                  | none => step.value).getD "")]

/-- Outcomes of the browser-facing collaborators during a run, per step
position: the first `executeStep` attempt, the auth-failure detector (only
consulted after a failure), the login sub-flow, the single retried
`executeStep`, and the failure screenshot / `page.url()` values. -/
structure ExecOracle where
  firstAttempt : Nat → Except String Unit
  authDetected : Nat → Bool
  authFlow : Nat → Except String Unit
  retryStep : Nat → Except String Unit
  failShot : Nat → String
  failUrl : Nat → String

/-- Mutable state of the run loop in `execute`: completed-step count, the
active frame scope, accumulated screenshots, the terminal `StepError`, plus
two instrumentation fields — how many times `executeStep` ran per position,
and the page actions of each completed step execution. -/
structure LoopState where
  stepsCompleted : Nat := 0
  frame : Option String := none
  screenshots : List String := []
  stepError : Option StepError := none
  execCalls : List (Nat × Nat) := []
  trace : List (Nat × EngineAction) := []
deriving Repr

/-- Push a failure screenshot (`if (screenshot) screenshots.push(...)`):
the empty string — the `catch` fallback of `captureScreenshot` — is not
recorded. -/
def pushShot (shot : String) (st : LoopState) : LoopState :=
  { st with screenshots := st.screenshots ++ (if shot = "" then [] else [shot]) }

/-- Advance the loop state over a successfully executed step at position
`i` (`calls` = number of `executeStep` invocations it took). -/
def completeStep (inject : String → String) (i : Nat) (step : RecordedStep)
    (calls : Nat) (st : LoopState) : LoopState :=
  { st with
      stepsCompleted := st.stepsCompleted + 1
      frame := frameAfter step st.frame
      execCalls := st.execCalls ++ [(i, calls)]
      trace := st.trace ++ (stepPageActions inject step st.frame).map (fun a => (i, a)) }

/-- The gate condition of `execute.ts`:
`step.type === 'navigate' && step.url && flow.metadata.allowedDomains?.length`. -/
def gateApplies (step : RecordedStep) (allowedDomains : Option (List String)) :
    Option (String × List String) :=
  match step.type, step.url, allowedDomains with
  | .navigate, some u, some allow =>
    if u = "" then none else if allow.isEmpty then none else some (u, allow)
  | _, _, _ => none

/-- The `for (const step of flow.steps)` loop of `execute` in `execute.ts`
(frame-aware variant), from the given position and state.  A failed domain
gate check is a thrown error (`Except.error`): the loop body's `try/catch`
does not wrap it, and the surrounding `try` has only a `finally`.  A step
failure runs the auth detector; on detection, the login sub-flow plus one
retried `executeStep`; an unrecovered failure sets the terminal `StepError`
and breaks. -/
def runSteps (o : ExecOracle) (hostOf : String → Option String)
    (inject : String → String) (flowName : String)
    (allowedDomains : Option (List String)) :
    List RecordedStep → Nat → LoopState → Except String LoopState
  | [], _, st => .ok st
  | step :: rest, i, st =>
    match (match gateApplies step allowedDomains with
           | some (u, allow) => assertDomainAllowed hostOf u allow flowName
           | none => .ok ()) with
    | .error m => .error m
    | .ok _ =>
      match o.firstAttempt i with
      | .ok _ =>
        runSteps o hostOf inject flowName allowedDomains rest (i + 1)
          (completeStep inject i step 1 st)
      | .error errMsg =>
        let shot := o.failShot i
        let st1 := pushShot shot st
        if o.authDetected i then
          match o.authFlow i with
          | .error m =>
            .ok { st1 with
              stepError := some ⟨step.index, step.type, m, shot, o.failUrl i, 1⟩
              execCalls := st1.execCalls ++ [(i, 1)] }
          | .ok _ =>
            match o.retryStep i with
            | .ok _ =>
              runSteps o hostOf inject flowName allowedDomains rest (i + 1)
                (completeStep inject i step 2 st1)
            | .error m =>
              .ok { st1 with
                stepError := some ⟨step.index, step.type, m, shot, o.failUrl i, 1⟩
                execCalls := st1.execCalls ++ [(i, 2)] }
        else
          .ok { st1 with
            stepError := some ⟨step.index, step.type, errMsg, shot, o.failUrl i, 0⟩
            execCalls := st1.execCalls ++ [(i, 1)] }

/-- `execute` from `execute.ts`, from the start of the step loop on (flow
loading, pre-flight and browser setup abstracted away): returns the
structured `RunResult`, or propagates a thrown error. -/
def executeRun (o : ExecOracle) (hostOf : String → Option String)
    (inject : String → String) (flow : FlowDocument) (finalShot : String)
    (durationMs : Nat) : Except String RunResult :=
  match runSteps o hostOf inject flow.metadata.name flow.metadata.allowedDomains
      flow.steps 0 {} with
  | .error m => .error m
  | .ok st =>
    let name := flow.metadata.name
    let total := flow.steps.length
    let done := st.stepsCompleted
    let screenshots :=
      match st.stepError with
      | none => st.screenshots ++ (if finalShot = "" then [] else [finalShot])
      | some _ => st.screenshots
    let confirmation :=
      match st.stepError with
      | none =>
        "Flow \"" ++ name ++ "\" completed successfully (" ++ toString done ++
          "/" ++ toString total ++ " steps)"
      | some e => "Flow \"" ++ name ++ "\" failed at step " ++ toString e.step
    .ok { success := st.stepError.isNone
          confirmation := confirmation
          flow := name
          duration_ms := durationMs
          steps_completed := done
          steps_total := total
          screenshots := screenshots
          error := st.stepError }

/-! ## Concrete instances for end-to-end runs -/

/-- An oracle whose collaborators all succeed. -/
def oracleOk : ExecOracle :=
  ⟨fun _ => .ok (), fun _ => false, fun _ => .ok (), fun _ => .ok (),
    fun _ => "", fun _ => ""⟩

/-- A one-step flow navigating inside its allowlist. -/
def flowDemo : FlowDocument :=
  { metadata :=
      { name := "demo"
        url := "https://example.com"
        allowedDomains := some ["*.example.com"] }
    steps :=
      [{ index := 0
         type := .navigate
         url := some "https://example.com"
         pageUrl := "https://example.com" }] }

/-- A one-step flow whose single navigate step targets a host outside its
non-empty allowlist. -/
def flowBlocked : FlowDocument :=
  { metadata :=
      { name := "crm-export"
        url := "https://evil.com"
        allowedDomains := some ["*.example.com"] }
    steps :=
      [{ index := 0
         type := .navigate
         url := some "https://evil.com"
         pageUrl := "https://evil.com" }] }

/-- An oracle whose step at position 1 fails once, looks like an auth
failure, and recovers: the login sub-flow and the retried step succeed. -/
def oracleRecover : ExecOracle :=
  ⟨fun i => if i = 1 then .error "selector timeout" else .ok (),
    fun _ => true, fun _ => .ok (), fun _ => .ok (),
    fun _ => "shot1.png", fun _ => "https://example.com/login"⟩

/-- Three click steps of a concrete flow. -/
def stepClick0 : RecordedStep :=
  { index := 0, type := .click, pageUrl := "https://example.com" }

/-- Second step (fails once in the recovery scenario). -/
def stepClick1 : RecordedStep :=
  { index := 1, type := .click, pageUrl := "https://example.com" }

/-- Third step. -/
def stepClick2 : RecordedStep :=
  { index := 2, type := .click, pageUrl := "https://example.com" }

/-- A three-step flow with no allowlist. -/
def flow3 : FlowDocument :=
  { metadata := { name := "checkout", url := "https://example.com" },
    steps := [stepClick0, stepClick1, stepClick2] }

/-- A concrete frame-switch step. -/
def frameStepDemo : RecordedStep :=
  { index := 5, type := .frameSwitch, frameSelector := some "#payment-frame",
    pageUrl := "https://example.com" }

/-! ## Theorems -/

/-- C5: for every `RetryConfig` and attempt `n`, the backoff delay is
`min(initial × multiplier^n, ceiling)`; attempt 0 uses the initial value
unscaled (whenever it does not already exceed the ceiling); and for
initial 500, multiplier 2, ceiling 8000 the delays for attempts 0..3 are
500, 1000, 2000, 4000, and attempt 10 gives 8000. -/
theorem calcBackoff_formula :
    (∀ (config : RetryConfig) (n : Nat),
      calcBackoff n config
        = min (config.backoffMs * config.backoffMultiplier ^ n) config.maxBackoffMs) ∧
    (∀ config : RetryConfig, config.backoffMs ≤ config.maxBackoffMs →
      calcBackoff 0 config = config.backoffMs) ∧
    calcBackoff 0 ⟨3, 500, 2, 8000⟩ = 500 ∧
    calcBackoff 1 ⟨3, 500, 2, 8000⟩ = 1000 ∧
    calcBackoff 2 ⟨3, 500, 2, 8000⟩ = 2000 ∧
    calcBackoff 3 ⟨3, 500, 2, 8000⟩ = 4000 ∧
    calcBackoff 10 ⟨3, 500, 2, 8000⟩ = 8000 := by
  refine ⟨fun config n => rfl, fun config h => ?_, by decide, by decide, by decide,
    by decide, by decide⟩
  simp only [calcBackoff, pow_zero, mul_one]
  omega

/-- Witness for `calcBackoff_formula` at the default initial/ceiling pair. -/
theorem calcBackoff_formula_witness :
    (500 : Nat) ≤ 8000 ∧ calcBackoff 0 ⟨3, 500, 2, 8000⟩ = 500 :=
  ⟨by decide, calcBackoff_formula.2.1 ⟨3, 500, 2, 8000⟩ (by decide)⟩

/-- The retry loop of `withRetry` on an always-failing operation with the
default `retry` decision: all `maxRetries + 1` remaining attempts run and the
last error is propagated. -/
theorem withRetryGo_allFail {E T : Type} (errs : Nat → E) (maxRetries : Nat) :
    ∀ (fuel attempt : Nat) (last : E), attempt + fuel = maxRetries + 1 → 1 ≤ fuel →
    withRetryGo (fun i => (.error (errs i) : Except E T)) (fun _ _ => .retry)
        maxRetries attempt fuel last
      = (.error (errs maxRetries), fuel) := by
  intro fuel
  induction fuel with
  | zero => intro attempt last _ h; omega
  | succ f ih =>
    intro attempt last hsum _
    cases f with
    | zero =>
      have ha : attempt = maxRetries := by omega
      subst ha
      simp [withRetryGo]
    | succ f' =>
      have hlt : attempt < maxRetries := by omega
      have hrec := ih (attempt + 1) (errs attempt) (by omega) (by omega)
      conv_lhs => rw [withRetryGo.eq_def]
      simp only [if_pos hlt, hrec]

/-- Witness for `withRetryGo_allFail`. -/
theorem withRetryGo_allFail_witness :
    (0 + 3 = 2 + 1 ∧ 1 ≤ 3) ∧
    withRetryGo (fun i => (.error (toString i) : Except String Unit))
        (fun _ _ => .retry) 2 0 3 "Unknown error" = (.error "2", 3) :=
  ⟨⟨by decide, by decide⟩,
    withRetryGo_allFail (fun i => toString i) 2 3 0 "Unknown error"
      (by decide) (by decide)⟩

/-- C4: `withRetry` on an always-failing operation invokes it exactly
`maxRetries + 1` times and propagates the last error; with an `abort`
decision it invokes it exactly once and throws that error; with a `skip`
decision (consulted on an attempt that still has retries remaining, i.e.
`maxRetries ≥ 1`) it returns `null` rather than an error, after exactly one
invocation. -/
theorem withRetry_attempt_counts :
    (∀ (E T : Type) (cfg : RetryConfig) (errs : Nat → E) (e0 : E),
      withRetry (fun i => (.error (errs i) : Except E T)) (fun _ _ => .retry) cfg e0
        = (.error (errs cfg.maxRetries), cfg.maxRetries + 1)) ∧
    (∀ (E T : Type) (cfg : RetryConfig) (errs : Nat → E) (e0 : E),
      withRetry (fun i => (.error (errs i) : Except E T)) (fun _ _ => .abort) cfg e0
        = (.error (errs 0), 1)) ∧
    (∀ (E T : Type) (cfg : RetryConfig) (errs : Nat → E) (e0 : E),
      1 ≤ cfg.maxRetries →
      withRetry (fun i => (.error (errs i) : Except E T)) (fun _ _ => .skip) cfg e0
        = (.ok none, 1)) := by
  refine ⟨fun E T cfg errs e0 => ?_, fun E T cfg errs e0 => ?_,
    fun E T cfg errs e0 h => ?_⟩
  · exact withRetryGo_allFail errs cfg.maxRetries (cfg.maxRetries + 1) 0 e0
      (by omega) (by omega)
  · simp only [withRetry, withRetryGo]
    split <;> rfl
  · simp only [withRetry, withRetryGo]
    rw [if_pos (by omega)]

/-- Witness for `withRetry_attempt_counts` (`maxRetries = 3`, the default). -/
theorem withRetry_attempt_counts_witness :
    1 ≤ (3 : Nat) ∧
    withRetry (fun i => (.error (toString i) : Except String Unit))
        (fun _ _ => .skip) ⟨3, 500, 2, 8000⟩ "Unknown error" = (.ok none, 1) :=
  ⟨by decide,
    withRetry_attempt_counts.2.2 String Unit ⟨3, 500, 2, 8000⟩
      (fun i => toString i) "Unknown error" (by decide)⟩

/-- `patternMatches` agrees with the spec's entry rule on every entry that
carries no surrounding whitespace (the code additionally trims entries). -/
theorem patternMatches_eq_spec (h e : String)
    (ht : jsTrim (jsToLower e) = jsToLower e) :
    patternMatches h e = specEntryMatches h e := by
  simp only [patternMatches, specEntryMatches, ht]

/-- C2: for every URL and allowlist (whose entries carry no surrounding
whitespace), the gate permits the URL iff the allowlist is empty, or the
URL's hostname — compared case-insensitively — matches some entry: exact
equality for a plain entry, and for a `*.<domain>` entry the bare domain or
any subdomain of it; every other case is rejected, and the rejection error
thrown by `assertDomainAllowed` names both the flow and the blocked URL. -/
theorem isDomainAllowed_spec :
    (∀ (hostOf : String → Option String) (url : String) (allow : List String),
      (∀ e ∈ allow, jsTrim (jsToLower e) = jsToLower e) →
      (isDomainAllowed hostOf url allow = true ↔
        allow = [] ∨ ∃ host, hostOf url = some host ∧
          ∃ e ∈ allow, specEntryMatches (jsToLower host) e = true)) ∧
    (∀ (hostOf : String → Option String) (url : String) (allow : List String)
        (flowName : String),
      isDomainAllowed hostOf url allow = false →
      assertDomainAllowed hostOf url allow flowName
          = .error (securityMessage url allow flowName) ∧
        strContains (securityMessage url allow flowName) url ∧
        strContains (securityMessage url allow flowName) flowName) := by
  constructor
  · intro hostOf url allow htrim
    unfold isDomainAllowed
    by_cases hemp : allow.isEmpty
    · have hnil : allow = [] := by
        cases allow with
        | nil => rfl
        | cons a l => simp [List.isEmpty] at hemp
      simp [hemp, hnil]
    · have hne : allow ≠ [] := by
        intro h
        subst h
        simp [List.isEmpty] at hemp
      rw [if_neg hemp]
      cases hh : hostOf url with
      | none => simp [hne]
      | some raw =>
        simp only [List.any_eq_true, hne, false_or, Option.some.injEq]
        constructor
        · rintro ⟨e, he, hm⟩
          exact ⟨raw, rfl, e, he, by
            rwa [patternMatches_eq_spec _ _ (htrim e he)] at hm⟩
        · rintro ⟨host, hhost, e, he, hm⟩
          subst hhost
          exact ⟨e, he, by rwa [patternMatches_eq_spec _ _ (htrim e he)]⟩
  · intro hostOf url allow flowName hfalse
    refine ⟨by simp [assertDomainAllowed, hfalse], ?_, ?_⟩
    · refine ⟨("[SECURITY] Navigation to ").data,
        (" is blocked by the domain allowlist for flow \"").data ++
          (flowName.data ++ (("\". Allowed domains: ").data ++
            (String.intercalate ", " allow).data)), ?_⟩
      simp [securityMessage, String.data_append, List.append_assoc]
    · refine ⟨("[SECURITY] Navigation to ").data ++
        (url.data ++ (" is blocked by the domain allowlist for flow \"").data),
        ("\". Allowed domains: ").data ++ (String.intercalate ", " allow).data, ?_⟩
      simp [securityMessage, String.data_append, List.append_assoc]

/-- Witness for `isDomainAllowed_spec`: the spec's own examples —
`["*.example.com"]` allows `https://app.example.com` (and the match is
case-insensitive), rejects `https://evil.com` with a message naming flow
and URL. -/
theorem isDomainAllowed_spec_witness :
    ((∀ e ∈ ["*.example.com"], jsTrim (jsToLower e) = jsToLower e) ∧
      (isDomainAllowed simpleHost "https://app.example.com" ["*.example.com"] = true ↔
        ["*.example.com"] = ([] : List String) ∨
          ∃ host, simpleHost "https://app.example.com" = some host ∧
            ∃ e ∈ ["*.example.com"], specEntryMatches (jsToLower host) e = true)) ∧
    (isDomainAllowed simpleHost "https://evil.com" ["*.example.com"] = false ∧
      (assertDomainAllowed simpleHost "https://evil.com" ["*.example.com"] "crm-export"
          = .error (securityMessage "https://evil.com" ["*.example.com"] "crm-export") ∧
        strContains (securityMessage "https://evil.com" ["*.example.com"] "crm-export")
          "https://evil.com" ∧
        strContains (securityMessage "https://evil.com" ["*.example.com"] "crm-export")
          "crm-export")) ∧
    isDomainAllowed simpleHost "https://example.com" ["*.example.com"] = true ∧
    isDomainAllowed simpleHost "https://APP.Example.COM" ["*.example.com"] = true :=
  ⟨⟨by decide,
      isDomainAllowed_spec.1 simpleHost "https://app.example.com" ["*.example.com"]
        (by decide)⟩,
    ⟨by decide,
      isDomainAllowed_spec.2 simpleHost "https://evil.com" ["*.example.com"]
        "crm-export" (by decide)⟩,
    by decide, by decide⟩

/-- C10: the domain-allow decision is total: with an empty allowlist it
returns `true` for every URL without consulting the hostname parser at all
(the result holds for every parser, including one that fails on the given
string), and with a non-empty allowlist an unparseable URL yields `false`
rather than an error. -/
theorem isDomainAllowed_total :
    (∀ (hostOf : String → Option String) (url : String),
      isDomainAllowed hostOf url [] = true) ∧
    (∀ (hostOf : String → Option String) (url : String) (allow : List String),
      allow ≠ [] → hostOf url = none → isDomainAllowed hostOf url allow = false) := by
  constructor
  · intro hostOf url
    simp [isDomainAllowed]
  · intro hostOf url allow hne hnone
    cases allow with
    | nil => exact absurd rfl hne
    | cons a l => simp [isDomainAllowed, hnone, List.isEmpty]

/-- Witness for `isDomainAllowed_total`: `not a url` has no parseable
hostname and is rejected under a non-empty allowlist. -/
theorem isDomainAllowed_total_witness :
    (["example.com"] ≠ ([] : List String) ∧ simpleHost "not a url" = none) ∧
    isDomainAllowed simpleHost "not a url" ["example.com"] = false :=
  ⟨⟨by decide, by decide⟩,
    isDomainAllowed_total.2 simpleHost "not a url" ["example.com"]
      (by decide) (by decide)⟩

/-- When no candidate is visible, `firstVisible` finds nothing. -/
theorem firstVisible_none (vis : String → Bool) (l : List String)
    (h : ∀ x ∈ l, vis x = false) : firstVisible vis l = none := by
  induction l with
  | nil => rfl
  | cons a rest ih =>
    simp [firstVisible, h a (by simp), ih (fun x hx => h x (by simp [hx]))]

/-- When no candidate ever becomes visible, every round of the
`resilientLocator` loop fails and the final result is the thrown
`NoSelectorMatched` error. -/
theorem resilientLocatorGo_allInvisible (vis : Nat → String → Bool)
    (ordered : List String) (hvis : ∀ n x, vis n x = false) :
    ∀ (fuel round : Nat),
      resilientLocatorGo vis ordered round fuel
        = .error (noSelectorMessage ordered) := by
  intro fuel
  induction fuel with
  | zero => intro round; simp [resilientLocatorGo]
  | succ f ih =>
    intro round
    have hnone : firstVisible (vis round) ordered = none :=
      firstVisible_none _ _ (fun x _ => hvis round x)
    simp [resilientLocatorGo, hnone, ih]

/-- One unfolding of the `resilientLocator` retry loop. -/
theorem resilientLocatorGo_succ (vis : Nat → String → Bool)
    (ordered : List String) (round fuel : Nat) :
    resilientLocatorGo vis ordered round (fuel + 1)
      = (match firstVisible (vis round) ordered with
          | some sel => .ok sel
          | none => resilientLocatorGo vis ordered (round + 1) fuel) := rfl

/-- C3 (amended): resolution order is the fixed testId, aria, text, css,
xpath sequence, skipping absent strategies; the first candidate to become
visible wins; but the fall-back to the (not yet visible) first candidate
exists only in the frame-scoped resolver — the page-level
`resilientLocator` instead retries all rounds and, when nothing ever
becomes visible, throws a `NoSelectorMatched` error naming every candidate
tried. -/
theorem selector_resolution_order :
    (prioritizedSelectors
        { testId := some "T", aria := some "A", text := some "X",
          css := some "C", xpath := some "P" }
      = ["T", "A", "text=X", "C", "xpath=P"]) ∧
    (prioritizedSelectors { aria := some "A", css := some "C" } = ["A", "C"]) ∧
    (∀ (vis : String → Bool) (l : List String) (sel : String),
      firstVisible vis l = some sel ↔
        ∃ l₁ l₂, l = l₁ ++ sel :: l₂ ∧ (∀ x ∈ l₁, vis x = false) ∧
          vis sel = true) ∧
    (∀ (vis : Nat → String → Bool) (s : SelectorSet) (cfg : RetryConfig)
        (sel : String),
      firstVisible (vis 0) (prioritizedSelectors s) = some sel →
      resilientLocator vis s cfg = .ok sel) ∧
    (∀ (vis : Nat → String → Bool) (s : SelectorSet) (cfg : RetryConfig),
      (∀ n x, vis n x = false) →
      resilientLocator vis s cfg
        = .error (noSelectorMessage (prioritizedSelectors s))) ∧
    (∀ (vis : String → Bool) (f : String) (s : SelectorSet) (sel0 : String)
        (rest : List String),
      (∀ x, vis x = false) → prioritizedSelectors s = sel0 :: rest →
      resolveLocatorFrame vis f s = .ok sel0) ∧
    (∀ (vis : String → Bool) (f : String) (s : SelectorSet) (sel : String),
      firstVisible vis (prioritizedSelectors s) = some sel →
      resolveLocatorFrame vis f s = .ok sel) := by
  refine ⟨by decide, by decide, ?_, ?_, ?_, ?_, ?_⟩
  · intro vis l
    induction l with
    | nil =>
      intro sel
      simp only [firstVisible]
      constructor
      · intro h; cases h
      · rintro ⟨l₁, l₂, h, -, -⟩
        exact absurd h.symm (by simp)
    | cons a rest ih =>
      intro sel
      simp only [firstVisible]
      by_cases ha : vis a = true
      · rw [if_pos ha]
        constructor
        · intro h
          cases h
          exact ⟨[], rest, rfl, by simp, ha⟩
        · rintro ⟨l₁, l₂, heq, hinv, hsel⟩
          cases l₁ with
          | nil =>
            simp only [List.nil_append, List.cons.injEq] at heq
            rw [heq.1]
          | cons b l₁ =>
            simp only [List.cons_append, List.cons.injEq] at heq
            have hb := hinv b (by simp)
            rw [← heq.1] at hb
            rw [hb] at ha
            cases ha
      · rw [if_neg ha]
        rw [ih sel]
        have hafalse : vis a = false := by
          cases hv : vis a with
          | true => exact absurd hv ha
          | false => rfl
        constructor
        · rintro ⟨l₁, l₂, heq, hinv, hsel⟩
          refine ⟨a :: l₁, l₂, by rw [heq]; rfl, ?_, hsel⟩
          intro x hx
          rcases List.mem_cons.mp hx with hxa | hxl
          · rw [hxa]; exact hafalse
          · exact hinv x hxl
        · rintro ⟨l₁, l₂, heq, hinv, hsel⟩
          cases l₁ with
          | nil =>
            simp only [List.nil_append, List.cons.injEq] at heq
            rw [← heq.1] at hsel
            rw [hsel] at hafalse
            cases hafalse
          | cons b l₁ =>
            simp only [List.cons_append, List.cons.injEq] at heq
            exact ⟨l₁, l₂, heq.2, fun x hx => hinv x (by simp [hx]), hsel⟩
  · intro vis s cfg sel h
    simp [resilientLocator, resilientLocatorGo_succ, h]
  · intro vis s cfg hvis
    exact resilientLocatorGo_allInvisible vis (prioritizedSelectors s) hvis _ 0
  · intro vis f s sel0 rest hvis hlist
    have hnone := firstVisible_none vis (prioritizedSelectors s) (fun x _ => hvis x)
    rw [hlist] at hnone
    simp [resolveLocatorFrame, hlist, hnone]
  · intro vis f s sel h
    simp [resolveLocatorFrame, h]

/-- Witness for `selector_resolution_order`: with only a css strategy and a
visibility oracle that accepts it, resolution returns that selector. -/
theorem selector_resolution_order_witness :
    firstVisible (fun _ => true) (prioritizedSelectors { css := some "button" })
        = some "button" ∧
    resolveLocatorFrame (fun _ => true) "#frame" { css := some "button" }
        = .ok "button" :=
  ⟨by decide,
    (selector_resolution_order.2.2.2.2.2.2) (fun _ => true) "#frame"
      { css := some "button" } "button" (by decide)⟩

/-- C3 counterexample: at page level, a `SelectorSet` whose only candidate
never becomes visible makes `resilientLocator` throw the `NoSelectorMatched`
error — it does not fall back to returning the first candidate. -/
theorem resilientLocator_counterexample :
    resilientLocator (fun _ _ => false) { css := some "button" }
        DEFAULT_RETRY_CONFIG
      = .error "No selector matched for step. Tried: button" ∧
    resilientLocator (fun _ _ => false) { css := some "button" }
        DEFAULT_RETRY_CONFIG
      ≠ .ok "button" := by
  have h : resilientLocator (fun _ _ => false) { css := some "button" }
      DEFAULT_RETRY_CONFIG
      = .error "No selector matched for step. Tried: button" := rfl
  refine ⟨h, ?_⟩
  rw [h]
  intro hc
  cases hc

/-! ### Versioning lemmas -/

/-- Looking up a file right after `setFile` returns the written content. -/
theorem fileContent_map_set (name c : String) :
    ∀ files : List (String × String), files.any (fun p => p.1 == name) = true →
    fileContent (files.map (fun p => if p.1 == name then (name, c) else p)) name
      = some c := by
  intro files
  induction files with
  | nil => intro h; simp at h
  | cons p rest ih =>
    intro h
    by_cases hp : (p.1 == name) = true
    · have hrw : (if (p.1 == name) = true then (name, c) else p) = (name, c) :=
        if_pos hp
      rw [List.map_cons, hrw]
      simp [fileContent, List.find?]
    · have hrest : rest.any (fun q => q.1 == name) = true := by
        rcases (List.any_eq_true.mp h) with ⟨q, hq, hqn⟩
        rcases List.mem_cons.mp hq with rfl | hqr
        · exact absurd hqn hp
        · exact List.any_eq_true.mpr ⟨q, hqr, hqn⟩
      have hp' : (p.1 == name) = false := by
        simp only [Bool.not_eq_true] at hp
        exact hp
      rw [List.map_cons, if_neg hp]
      rw [fileContent]
      simp only [List.find?, hp']
      exact ih hrest

/-- Appending a fresh file makes it found when no earlier file matches. -/
theorem fileContent_append_new (name c : String) :
    ∀ files : List (String × String), files.any (fun p => p.1 == name) = false →
    fileContent (files ++ [(name, c)]) name = some c := by
  intro files
  induction files with
  | nil => intro _; simp [fileContent]
  | cons p rest ih =>
    intro h
    simp only [List.any_cons, Bool.or_eq_false_iff] at h
    rw [List.cons_append, fileContent]
    simp only [List.find?, h.1]
    exact ih h.2

/-- `setFile` then `fileContent` at the same name yields the content. -/
theorem fileContent_setFile (files : List (String × String)) (name c : String) :
    fileContent (setFile files name c) name = some c := by
  unfold setFile
  by_cases h : files.any (fun p => p.1 == name) = true
  · rw [if_pos h]
    exact fileContent_map_set name c files h
  · rw [if_neg h]
    exact fileContent_append_new name c files (by
      simp only [Bool.not_eq_true] at h
      exact h)

/-- The strict-improvement fold used by rollback selection returns an element
of `best :: l` whose score is maximal among `best` and `l`. -/
theorem foldlBest_spec (nowMs : Int) :
    ∀ (l : List FlowVersion) (best : FlowVersion),
      (l.foldl
          (fun b w => if versionScore nowMs w > versionScore nowMs b then w else b)
          best) ∈ best :: l ∧
      versionScore nowMs best
        ≤ versionScore nowMs
            (l.foldl
              (fun b w => if versionScore nowMs w > versionScore nowMs b then w else b)
              best) ∧
      ∀ v ∈ l, versionScore nowMs v
        ≤ versionScore nowMs
            (l.foldl
              (fun b w => if versionScore nowMs w > versionScore nowMs b then w else b)
              best) := by
  intro l
  induction l with
  | nil => intro best; exact ⟨by simp, le_refl _, by simp⟩
  | cons a rest ih =>
    intro best
    rw [List.foldl_cons]
    obtain ⟨hmem, hle, hall⟩ :=
      ih (if versionScore nowMs a > versionScore nowMs best then a else best)
    have hb1mem : (if versionScore nowMs a > versionScore nowMs best then a else best) = a ∨
        (if versionScore nowMs a > versionScore nowMs best then a else best) = best := by
      by_cases hc : versionScore nowMs a > versionScore nowMs best
      · left; rw [if_pos hc]
      · right; rw [if_neg hc]
    refine ⟨?_, ?_, ?_⟩
    · rcases List.mem_cons.mp hmem with h | h
      · rw [h]
        rcases hb1mem with h2 | h2 <;> rw [h2] <;> simp
      · exact List.mem_cons.mpr (Or.inr (List.mem_cons.mpr (Or.inr h)))
    · refine le_trans ?_ hle
      by_cases hc : versionScore nowMs a > versionScore nowMs best
      · rw [if_pos hc]; exact le_of_lt hc
      · rw [if_neg hc]
    · intro v hv
      rcases List.mem_cons.mp hv with rfl | hvr
      · refine le_trans ?_ hle
        by_cases hc : versionScore nowMs v > versionScore nowMs best
        · rw [if_pos hc]
        · rw [if_neg hc]; exact le_of_not_lt hc
      · exact hall v hvr

/-- C8 counterexample: from the prior aggregate (oldRate = 0.3,
oldRunCount = 1), recording a failed run sets the rate to
`round(0.3·1)/2 = 0`, while the claimed running-average formula gives
`(0.3·1 + 0)/2 = 0.15 ≠ 0`. -/
theorem recordRunResult_counterexample :
    (recordRunUpdate false
        { version := 1, savedAtMs := 0, scriptFile := "script.v1.ts",
          successRate := some (3 / 10), runCount := some 1 }).successRate
      = some 0 ∧
    ((3 : ℚ) / 10 * 1 + 0) / (1 + 1) ≠ (0 : ℚ) := by
  constructor
  · show some ((((round ((3 : ℚ) / 10 * ((1 : Nat) : ℚ)) : ℤ) + 0 : ℤ) : ℚ) / ((2 : Nat) : ℚ))
      = some (0 : ℚ)
    norm_num [round_eq]
  · norm_num

/-- C8 (amended): `recordRunResult` updates the latest version's run count
to `oldRunCount + 1` and its rate to
`(round(oldRate × oldRunCount) + (success ? 1 : 0)) / (oldRunCount + 1)`;
whenever `oldRate × oldRunCount` is an integer — as it is for every
aggregate this update itself produces — this equals the claimed running
average `(oldRate × oldRunCount + (success ? 1 : 0)) / (oldRunCount + 1)`. -/
theorem recordRunResult_running_average :
    (∀ (success : Bool) (latest : FlowVersion),
      (recordRunUpdate success latest).runCount
          = some ((latest.runCount.getD 0) + 1) ∧
      (recordRunUpdate success latest).successRate
          = some ((((round ((latest.successRate.getD 0) *
                ((latest.runCount.getD 0 : Nat) : ℚ)) : ℤ) : ℚ)
              + (if success then 1 else 0))
            / (((latest.runCount.getD 0 : Nat) : ℚ) + 1))) ∧
    (∀ (success : Bool) (latest : FlowVersion) (k : ℤ),
      (latest.successRate.getD 0) * ((latest.runCount.getD 0 : Nat) : ℚ) = (k : ℚ) →
      (recordRunUpdate success latest).successRate
          = some (((latest.successRate.getD 0) * ((latest.runCount.getD 0 : Nat) : ℚ)
              + (if success then 1 else 0))
            / (((latest.runCount.getD 0 : Nat) : ℚ) + 1))) ∧
    (∀ (success : Bool) (h : List FlowVersion) (latest : FlowVersion),
      recordRunResult success (h ++ [latest])
        = h ++ [recordRunUpdate success latest]) := by
  refine ⟨fun success latest => ⟨rfl, ?_⟩, fun success latest k hk => ?_, ?_⟩
  · show some ((((round ((latest.successRate.getD 0) *
          ((latest.runCount.getD 0 : Nat) : ℚ)) : ℤ)
            + (if success then 1 else 0) : ℤ) : ℚ)
        / (((latest.runCount.getD 0 + 1 : Nat) : ℚ))) = _
    congr 1
    push_cast
    ring
  · show some ((((round ((latest.successRate.getD 0) *
          ((latest.runCount.getD 0 : Nat) : ℚ)) : ℤ)
            + (if success then 1 else 0) : ℤ) : ℚ)
        / (((latest.runCount.getD 0 + 1 : Nat) : ℚ))) = _
    rw [hk, round_intCast]
    congr 1
    push_cast
    ring
  · intro success h latest
    simp [recordRunResult]

/-- Witness for `recordRunResult_running_average`: a version with rate 1/2
over 2 runs (integral success count 1) plus one success gives rate 2/3. -/
theorem recordRunResult_running_average_witness :
    ((1 : ℚ) / 2 * ((2 : Nat) : ℚ) = ((1 : ℤ) : ℚ)) ∧
    (recordRunUpdate true
        { version := 1, savedAtMs := 0, scriptFile := "script.v1.ts",
          successRate := some (1 / 2), runCount := some 2 }).successRate
      = some (((1 : ℚ) / 2 * ((2 : Nat) : ℚ) + 1) / (((2 : Nat) : ℚ) + 1)) :=
  ⟨by norm_num,
    recordRunResult_running_average.2.1 true
      { version := 1, savedAtMs := 0, scriptFile := "script.v1.ts",
        successRate := some (1 / 2), runCount := some 2 } 1 (by norm_num)⟩

/-- C9: rollback scores versions as `0.7 × successRate + 0.3 × recency`
with `recency = max(0, 1 − ageMs/30days)` (zero beyond 30 days), restores
the highest-scoring version (selecting B over A in the spec's example), and
archives the previously active script as a new version before overwriting
it — the prior history is always preserved as a prefix. -/
theorem rollback_scoring :
    (∀ (nowMs : Int) (v : FlowVersion),
      (2592000000 : ℤ) ≤ nowMs - v.savedAtMs → recencyScore nowMs v = 0) ∧
    (∀ (nowMs : Int) (h : List FlowVersion) (target : FlowVersion),
      selectRollbackTarget nowMs h = some target →
      target ∈ h ∧ ∀ v ∈ h, versionScore nowMs v ≤ versionScore nowMs target) ∧
    (versionScore 3456000000 ⟨1, 0, "script.v1.ts", some (9 / 10), some 10⟩
        = 63 / 100 ∧
      versionScore 3456000000 ⟨2, 3369600000, "script.v2.ts", some (6 / 10), some 5⟩
        = 71 / 100 ∧
      selectRollbackTarget 3456000000
          [⟨1, 0, "script.v1.ts", some (9 / 10), some 10⟩,
            ⟨2, 3369600000, "script.v2.ts", some (6 / 10), some 5⟩]
        = some ⟨2, 3369600000, "script.v2.ts", some (6 / 10), some 5⟩) ∧
    (∀ (nowMs : Int) (st : FlowStore),
      (rollback nowMs st).2.history = st.history ∨
        ∃ entry, (rollback nowMs st).2.history = st.history ++ [entry]) ∧
    (∀ (nowMs : Int) (st : FlowStore) (c : String),
      st.script = some c → (rollback nowMs st).1 = true →
      ∃ entry, (rollback nowMs st).2.history = st.history ++ [entry] ∧
        fileContent (rollback nowMs st).2.archiveFiles entry.scriptFile = some c) ∧
    (∀ (nowMs : Int) (st : FlowStore),
      (rollback nowMs st).1 = true →
      ∃ target, selectRollbackTarget nowMs st.history = some target ∧
        (rollback nowMs st).2.script
          = fileContent (rollback nowMs st).2.archiveFiles target.scriptFile) := by
  refine ⟨?_, ?_, ⟨?_, ?_, ?_⟩, ?_, ?_, ?_⟩
  · intro nowMs v h
    unfold recencyScore
    rw [max_eq_left]
    have hage : (2592000000 : ℚ) ≤ ((nowMs - v.savedAtMs : ℤ) : ℚ) := by
      exact_mod_cast h
    rw [sub_nonpos, le_div_iff₀ (by push_cast; norm_num)]
    push_cast
    push_cast at hage
    linarith
  · intro nowMs h target hsel
    cases h with
    | nil => cases hsel
    | cons v rest =>
      obtain ⟨hmem, hle, hall⟩ := foldlBest_spec nowMs rest v
      have ht : rest.foldl
          (fun b w => if versionScore nowMs w > versionScore nowMs b then w else b) v
            = target := by
        simpa [selectRollbackTarget] using hsel
      rw [← ht]
      refine ⟨hmem, ?_⟩
      intro w hw
      rcases List.mem_cons.mp hw with rfl | hwr
      · exact hle
      · exact hall w hwr
  · unfold versionScore recencyScore
    rw [max_eq_left (by push_cast; norm_num)]
    norm_num
  · unfold versionScore recencyScore
    rw [max_eq_right (by push_cast; norm_num)]
    push_cast
    norm_num
  · have hA : versionScore 3456000000 ⟨1, 0, "script.v1.ts", some (9 / 10), some 10⟩
        = 63 / 100 := by
      unfold versionScore recencyScore
      rw [max_eq_left (by push_cast; norm_num)]
      norm_num
    have hB : versionScore 3456000000
        ⟨2, 3369600000, "script.v2.ts", some (6 / 10), some 5⟩ = 71 / 100 := by
      unfold versionScore recencyScore
      rw [max_eq_right (by push_cast; norm_num)]
      push_cast
      norm_num
    simp only [selectRollbackTarget, List.foldl_cons, List.foldl_nil]
    rw [hA, hB, if_pos (by norm_num)]
  · intro nowMs st
    rcases hsel : selectRollbackTarget nowMs st.history with _ | target
    · left; simp [rollback, hsel]
    · by_cases hfc : (fileContent st.archiveFiles target.scriptFile).isSome
      · rcases hscript : st.script with _ | c
        · left; simp [rollback, hsel, hfc, archiveCurrentScript, hscript]
        · right
          refine ⟨⟨((st.history.getLast?.map (fun v => v.version)).getD 0) + 1, nowMs,
            "script.v" ++
              toString (((st.history.getLast?.map (fun v => v.version)).getD 0) + 1)
              ++ ".ts", none, some 0⟩, ?_⟩
          simp [rollback, hsel, hfc, archiveCurrentScript, hscript]
      · left; simp [rollback, hsel, hfc]
  · intro nowMs st c hscript hflag
    rcases hsel : selectRollbackTarget nowMs st.history with _ | target
    · exfalso; simp [rollback, hsel] at hflag
    · by_cases hfc : (fileContent st.archiveFiles target.scriptFile).isSome
      · refine ⟨⟨((st.history.getLast?.map (fun v => v.version)).getD 0) + 1, nowMs,
          "script.v" ++
            toString (((st.history.getLast?.map (fun v => v.version)).getD 0) + 1)
            ++ ".ts", none, some 0⟩,
          by simp [rollback, hsel, hfc, archiveCurrentScript, hscript], ?_⟩
        have hset := fileContent_setFile st.archiveFiles
          ("script.v" ++
            toString (((st.history.getLast?.map (fun v => v.version)).getD 0) + 1)
            ++ ".ts") c
        simpa [rollback, hsel, hfc, archiveCurrentScript, hscript] using hset
      · exfalso; simp [rollback, hsel, hfc] at hflag
  · intro nowMs st hflag
    rcases hsel : selectRollbackTarget nowMs st.history with _ | target
    · exfalso; simp [rollback, hsel] at hflag
    · by_cases hfc : (fileContent st.archiveFiles target.scriptFile).isSome
      · exact ⟨target, rfl, by simp [rollback, hsel, hfc]⟩
      · exfalso; simp [rollback, hsel, hfc] at hflag

/-- Witness for `rollback_scoring`: rolling a concrete two-version store
back preserves the history prefix and archives the active script. -/
theorem rollback_scoring_witness :
    (({ history := [⟨1, 0, "script.v1.ts", some (9 / 10), some 10⟩],
        script := some "current-script",
        archiveFiles := [("script.v1.ts", "old-script")] } : FlowStore).script
          = some "current-script" ∧
      (rollback 3456000000
          { history := [⟨1, 0, "script.v1.ts", some (9 / 10), some 10⟩],
            script := some "current-script",
            archiveFiles := [("script.v1.ts", "old-script")] }).1 = true) ∧
    ∃ entry,
      (rollback 3456000000
          { history := [⟨1, 0, "script.v1.ts", some (9 / 10), some 10⟩],
            script := some "current-script",
            archiveFiles := [("script.v1.ts", "old-script")] }).2.history
        = [⟨1, 0, "script.v1.ts", some (9 / 10), some 10⟩] ++ [entry] ∧
      fileContent
          (rollback 3456000000
            { history := [⟨1, 0, "script.v1.ts", some (9 / 10), some 10⟩],
              script := some "current-script",
              archiveFiles := [("script.v1.ts", "old-script")] }).2.archiveFiles
          entry.scriptFile
        = some "current-script" :=
  ⟨⟨rfl, rfl⟩,
    rollback_scoring.2.2.2.2.1 3456000000
      { history := [⟨1, 0, "script.v1.ts", some (9 / 10), some 10⟩],
        script := some "current-script",
        archiveFiles := [("script.v1.ts", "old-script")] }
      "current-script" rfl rfl⟩

/-! ### Executor theorems -/

/-- When every navigate step that triggers the gate passes it, the run loop
never throws: it returns a final state, and completes at most one step per
list entry. -/
theorem runSteps_ok (o : ExecOracle) (hostOf : String → Option String)
    (inject : String → String) (flowName : String)
    (ad : Option (List String)) :
    ∀ (steps : List RecordedStep) (i : Nat) (st : LoopState),
      (∀ step ∈ steps, ∀ u allow, gateApplies step ad = some (u, allow) →
        isDomainAllowed hostOf u allow = true) →
      ∃ st', runSteps o hostOf inject flowName ad steps i st = .ok st' ∧
        st'.stepsCompleted ≤ st.stepsCompleted + steps.length := by
  intro steps
  induction steps with
  | nil => exact fun i st _ => ⟨st, rfl, by omega⟩
  | cons step rest ih =>
    intro i st hgate
    have hstep := hgate step (List.mem_cons_self step rest)
    have hrest : ∀ s ∈ rest, ∀ u allow, gateApplies s ad = some (u, allow) →
        isDomainAllowed hostOf u allow = true :=
      fun s hs => hgate s (List.mem_cons_of_mem step hs)
    rw [runSteps]
    have hgatepass : (match gateApplies step ad with
        | some (u, allow) => assertDomainAllowed hostOf u allow flowName
        | none => .ok ()) = Except.ok () := by
      cases hg : gateApplies step ad with
      | none => rfl
      | some p =>
        cases p with
        | mk u allow =>
          simp [assertDomainAllowed, hstep u allow hg]
    rw [hgatepass]
    simp only []
    cases hfa : o.firstAttempt i with
    | ok u =>
      simp only []
      obtain ⟨st', hrun, hle⟩ := ih (i + 1) (completeStep inject i step 1 st) hrest
      refine ⟨st', hrun, ?_⟩
      simp only [completeStep] at hle
      simp only [List.length_cons]
      omega
    | error errMsg =>
      simp only []
      by_cases had : o.authDetected i = true
      · rw [if_pos had]
        cases haf : o.authFlow i with
        | error m =>
          simp only []
          exact ⟨_, rfl, by simp [pushShot]⟩
        | ok u2 =>
          simp only []
          cases hrs : o.retryStep i with
          | ok u3 =>
            simp only []
            obtain ⟨st', hrun, hle⟩ := ih (i + 1) (completeStep inject i step 2 _) hrest
            refine ⟨st', hrun, ?_⟩
            simp only [completeStep, pushShot] at hle
            simp only [List.length_cons]
            omega
          | error m =>
            simp only []
            exact ⟨_, rfl, by simp [pushShot]⟩
      · rw [if_neg had]
        exact ⟨_, rfl, by simp [pushShot]⟩

/-- C1 (amended): for every run in which no navigate step is blocked by the
domain gate, `execute` returns a single structured `RunResult` whose success
flag mirrors the absence of a `StepError` and whose completed-step count is
bounded by the flow length; but a flow whose first step is a navigate
outside the allowlist makes `execute` throw the `SecurityViolation` past the
caller (an `Except.error`), instead of returning a failure result. -/
theorem executeRun_structured :
    (∀ (o : ExecOracle) (hostOf : String → Option String)
        (inject : String → String) (flow : FlowDocument) (finalShot : String)
        (durationMs : Nat),
      (∀ step ∈ flow.steps, ∀ u allow,
        gateApplies step flow.metadata.allowedDomains = some (u, allow) →
        isDomainAllowed hostOf u allow = true) →
      ∃ r, executeRun o hostOf inject flow finalShot durationMs = .ok r ∧
        r.success = r.error.isNone ∧
        r.steps_total = flow.steps.length ∧
        r.steps_completed ≤ flow.steps.length) ∧
    (∀ (o : ExecOracle) (hostOf : String → Option String)
        (inject : String → String) (flow : FlowDocument) (finalShot : String)
        (durationMs : Nat) (step : RecordedStep) (rest : List RecordedStep)
        (u : String) (allow : List String),
      flow.steps = step :: rest →
      gateApplies step flow.metadata.allowedDomains = some (u, allow) →
      isDomainAllowed hostOf u allow = false →
      executeRun o hostOf inject flow finalShot durationMs
        = .error (securityMessage u allow flow.metadata.name)) := by
  constructor
  · intro o hostOf inject flow finalShot durationMs hgate
    obtain ⟨st', hrun, hle⟩ :=
      runSteps_ok o hostOf inject flow.metadata.name flow.metadata.allowedDomains
        flow.steps 0 {} hgate
    simp only [executeRun, hrun]
    refine ⟨_, rfl, ?_, rfl, ?_⟩
    · cases st'.stepError <;> rfl
    · simpa using hle
  · intro o hostOf inject flow finalShot durationMs step rest u allow hsteps hg hblock
    simp [executeRun, hsteps, runSteps, hg, assertDomainAllowed, hblock]

/-- Witness for `executeRun_structured`: a one-step flow inside its
allowlist returns a structured result. -/
theorem executeRun_structured_witness :
    (∀ step ∈ flowDemo.steps, ∀ u allow,
      gateApplies step flowDemo.metadata.allowedDomains = some (u, allow) →
      isDomainAllowed simpleHost u allow = true) ∧
    ∃ r, executeRun oracleOk simpleHost (fun s => s) flowDemo "" 0 = .ok r ∧
      r.success = r.error.isNone ∧
      r.steps_total = flowDemo.steps.length ∧
      r.steps_completed ≤ flowDemo.steps.length := by
  have hp : ∀ step ∈ flowDemo.steps, ∀ u allow,
      gateApplies step flowDemo.metadata.allowedDomains = some (u, allow) →
      isDomainAllowed simpleHost u allow = true := by
    intro step hs u allow hg
    simp only [flowDemo, List.mem_singleton] at hs
    subst hs
    rw [show gateApplies
        { index := 0, type := .navigate, url := some "https://example.com",
          pageUrl := "https://example.com" }
        flowDemo.metadata.allowedDomains
      = some ("https://example.com", ["*.example.com"]) from rfl] at hg
    cases hg
    decide
  exact ⟨hp, executeRun_structured.1 oracleOk simpleHost (fun s => s) flowDemo
    "" 0 hp⟩

/-- C1 counterexample: the flow whose single navigate step targets
`https://evil.com` under allowlist `["*.example.com"]` makes `execute`
throw the SecurityViolation (`Except.error`) — no `RunResult` with
`steps_completed = 0` is returned. -/
theorem executeRun_security_counterexample :
    executeRun oracleOk simpleHost (fun s => s) flowBlocked "" 0
      = .error (securityMessage "https://evil.com" ["*.example.com"] "crm-export") ∧
    (executeRun oracleOk simpleHost (fun s => s) flowBlocked "" 0).toOption
      = none := ⟨rfl, rfl⟩

/-- C6: a three-step flow whose second step fails, is detected as an auth
failure and recovers (login sub-flow then exactly one retried execution of
the same step, invoked twice in total) reports success with
`steps_completed = 3` and no `StepError`; when the recovery fails instead,
the run ends with a terminal `StepError` attributed to the original step,
with `retriesAttempted = 1`. -/
theorem auth_recovery_run :
    (∀ (o : ExecOracle) (hostOf : String → Option String)
        (inject : String → String) (flow : FlowDocument)
        (s1 s2 s3 : RecordedStep) (finalShot : String) (durationMs : Nat)
        (m : String),
      flow.steps = [s1, s2, s3] →
      gateApplies s1 flow.metadata.allowedDomains = none →
      gateApplies s2 flow.metadata.allowedDomains = none →
      gateApplies s3 flow.metadata.allowedDomains = none →
      o.firstAttempt 0 = .ok () → o.firstAttempt 1 = .error m →
      o.firstAttempt 2 = .ok () →
      o.authDetected 1 = true → o.authFlow 1 = .ok () →
      o.retryStep 1 = .ok () →
      (∃ r, executeRun o hostOf inject flow finalShot durationMs = .ok r ∧
        r.success = true ∧ r.steps_completed = 3 ∧ r.steps_total = 3 ∧
        r.error = none) ∧
      ∃ st, runSteps o hostOf inject flow.metadata.name
          flow.metadata.allowedDomains flow.steps 0 {} = .ok st ∧
        st.execCalls = [(0, 1), (1, 2), (2, 1)]) ∧
    (∀ (o : ExecOracle) (hostOf : String → Option String)
        (inject : String → String) (flow : FlowDocument)
        (s1 s2 s3 : RecordedStep) (finalShot : String) (durationMs : Nat)
        (m m2 : String),
      flow.steps = [s1, s2, s3] →
      gateApplies s1 flow.metadata.allowedDomains = none →
      gateApplies s2 flow.metadata.allowedDomains = none →
      o.firstAttempt 0 = .ok () → o.firstAttempt 1 = .error m →
      o.authDetected 1 = true → o.authFlow 1 = .error m2 →
      ∃ r, executeRun o hostOf inject flow finalShot durationMs = .ok r ∧
        r.success = false ∧ r.steps_completed = 1 ∧
        r.error = some ⟨s2.index, s2.type, m2, o.failShot 1, o.failUrl 1, 1⟩) := by
  constructor
  · intro o hostOf inject flow s1 s2 s3 finalShot durationMs m hsteps hg1 hg2 hg3
      hfa0 hfa1 hfa2 had haf hrs
    have hrun : runSteps o hostOf inject flow.metadata.name
        flow.metadata.allowedDomains flow.steps 0 {} = .ok
          (completeStep inject 2 s3 1
            (completeStep inject 1 s2 2
              (pushShot (o.failShot 1) (completeStep inject 0 s1 1 {})))) := by
      rw [hsteps]
      rw [runSteps, hg1]
      simp only []
      rw [hfa0]
      simp only []
      rw [runSteps, hg2]
      simp only []
      rw [hfa1]
      simp only []
      rw [had, if_pos rfl, haf]
      simp only []
      rw [hrs]
      simp only []
      rw [runSteps, hg3]
      simp only []
      rw [hfa2]
      simp only []
      rw [runSteps]
    constructor
    · simp only [executeRun, hrun]
      refine ⟨_, rfl, rfl, ?_, ?_, rfl⟩
      · simp [completeStep, pushShot]
      · simp [hsteps]
    · refine ⟨_, hrun, ?_⟩
      simp [completeStep, pushShot]
  · intro o hostOf inject flow s1 s2 s3 finalShot durationMs m m2 hsteps hg1 hg2
      hfa0 hfa1 had haf
    have hrun : runSteps o hostOf inject flow.metadata.name
        flow.metadata.allowedDomains flow.steps 0 {} = .ok
          { pushShot (o.failShot 1) (completeStep inject 0 s1 1 {}) with
              stepError := some ⟨s2.index, s2.type, m2, o.failShot 1,
                o.failUrl 1, 1⟩
              execCalls :=
                (pushShot (o.failShot 1)
                    (completeStep inject 0 s1 1 ({} : LoopState))).execCalls ++
                  [(1, 1)] } := by
      rw [hsteps]
      rw [runSteps, hg1]
      simp only []
      rw [hfa0]
      simp only []
      rw [runSteps, hg2]
      simp only []
      rw [hfa1]
      simp only []
      rw [had, if_pos rfl, haf]
    simp only [executeRun, hrun]
    refine ⟨_, rfl, rfl, ?_, rfl⟩
    simp [completeStep, pushShot]

/-- Witness for `auth_recovery_run`: a concrete three-step flow with a
recovering second step. -/
theorem auth_recovery_run_witness :
    (flow3.steps = [stepClick0, stepClick1, stepClick2] ∧
      oracleRecover.firstAttempt 1 = .error "selector timeout" ∧
      oracleRecover.authDetected 1 = true) ∧
    ((∃ r, executeRun oracleRecover simpleHost (fun s => s) flow3 "" 0 = .ok r ∧
        r.success = true ∧ r.steps_completed = 3 ∧ r.steps_total = 3 ∧
        r.error = none) ∧
      ∃ st, runSteps oracleRecover simpleHost (fun s => s) flow3.metadata.name
          flow3.metadata.allowedDomains flow3.steps 0 {} = .ok st ∧
        st.execCalls = [(0, 1), (1, 2), (2, 1)]) := by
  have h := auth_recovery_run.1 oracleRecover simpleHost (fun s => s) flow3
    stepClick0 stepClick1 stepClick2 "" 0 "selector timeout"
    rfl rfl rfl rfl rfl rfl rfl rfl rfl rfl
  exact ⟨⟨rfl, rfl, rfl⟩, h⟩

/-- The frame effect of every non-frame-switch step is the identity. -/
theorem frameAfter_of_ne (step : RecordedStep) (fr : Option String)
    (h : step.type ≠ .frameSwitch) : frameAfter step fr = fr := by
  cases htype : step.type
  case frameSwitch => exact absurd htype h
  all_goals simp [frameAfter, htype]

/-- Across any segment of the run loop containing no frame-switch step, the
active frame scope is unchanged. -/
theorem runSteps_frame_const (o : ExecOracle) (hostOf : String → Option String)
    (inject : String → String) (flowName : String) (ad : Option (List String)) :
    ∀ (steps : List RecordedStep) (i : Nat) (st st' : LoopState),
      runSteps o hostOf inject flowName ad steps i st = .ok st' →
      (∀ s ∈ steps, s.type ≠ .frameSwitch) → st'.frame = st.frame := by
  intro steps
  induction steps with
  | nil =>
    intro i st st' hrun hns
    rw [runSteps] at hrun
    cases hrun
    rfl
  | cons step rest ih =>
    intro i st st' hrun hns
    have hstep : step.type ≠ .frameSwitch := hns step (List.mem_cons_self step rest)
    have hrest : ∀ s ∈ rest, s.type ≠ .frameSwitch :=
      fun s hs => hns s (List.mem_cons_of_mem step hs)
    rw [runSteps] at hrun
    cases hgm : (match gateApplies step ad with
        | some (u, allow) => assertDomainAllowed hostOf u allow flowName
        | none => Except.ok ()) with
    | error m =>
      rw [hgm] at hrun
      cases hrun
    | ok u =>
      rw [hgm] at hrun
      simp only [] at hrun
      cases hfa : o.firstAttempt i with
      | ok u2 =>
        rw [hfa] at hrun
        simp only [] at hrun
        have hfr := ih (i + 1) (completeStep inject i step 1 st) st' hrun hrest
        rw [hfr]
        simp [completeStep, frameAfter_of_ne step st.frame hstep]
      | error errMsg =>
        rw [hfa] at hrun
        simp only [] at hrun
        by_cases had : o.authDetected i = true
        · rw [had, if_pos rfl] at hrun
          cases haf : o.authFlow i with
          | error m2 =>
            rw [haf] at hrun
            simp only [] at hrun
            cases hrun
            simp [pushShot]
          | ok u3 =>
            rw [haf] at hrun
            simp only [] at hrun
            cases hrs : o.retryStep i with
            | ok u4 =>
              rw [hrs] at hrun
              simp only [] at hrun
              have hfr := ih (i + 1)
                (completeStep inject i step 2 (pushShot (o.failShot i) st)) st'
                hrun hrest
              rw [hfr]
              simp [completeStep, pushShot, frameAfter_of_ne step _ hstep]
            | error m3 =>
              rw [hrs] at hrun
              simp only [] at hrun
              cases hrun
              simp [pushShot]
        · rw [if_neg (by simpa using had)] at hrun
          cases hrun
          simp [pushShot]

/-- C7: a frame-switch step performs no page or element action and only
sets the active frame scope to `frameSelector ?? selectors.css`; every
other step kind leaves the scope unchanged (also across whole loop
segments), and every element-addressing action a step performs — locator
resolution and scoped visibility waits — is scoped by the active frame,
with an active frame scope making `resolveLocator` resolve inside that
frame. -/
theorem frame_scope_semantics :
    (∀ (inject : String → String) (step : RecordedStep) (fr : Option String),
      step.type = .frameSwitch →
      stepPageActions inject step fr = [] ∧
      frameAfter step fr = (match step.frameSelector with
        | some f => some f
        | none => step.selectors.css)) ∧
    (∀ (step : RecordedStep) (fr : Option String),
      step.type ≠ .frameSwitch → frameAfter step fr = fr) ∧
    (∀ (o : ExecOracle) (hostOf : String → Option String)
        (inject : String → String) (flowName : String)
        (ad : Option (List String)) (steps : List RecordedStep) (i : Nat)
        (st st' : LoopState),
      runSteps o hostOf inject flowName ad steps i st = .ok st' →
      (∀ s ∈ steps, s.type ≠ .frameSwitch) → st'.frame = st.frame) ∧
    (∀ (inject : String → String) (step : RecordedStep) (fr : Option String)
        (a : EngineAction),
      a ∈ stepPageActions inject step fr →
      ∀ sc, ((∃ sels, a = .locate sc sels) ∨ (∃ sel, a = .waitVisible sc sel)) →
      sc = fr) ∧
    (∀ (visF : String → Bool) (visP : Nat → String → Bool) (cfg : RetryConfig)
        (f : String) (sels : SelectorSet) (scope : ResolveScope) (sel : String),
      resolveLocator visF visP cfg (some f) sels = .ok (scope, sel) →
      scope = .frame f) := by
  refine ⟨?_, fun step fr h => frameAfter_of_ne step fr h,
    fun o hostOf inject flowName ad steps i st st' hrun hns =>
      runSteps_frame_const o hostOf inject flowName ad steps i st st' hrun hns,
    ?_, ?_⟩
  · intro inject step fr h
    exact ⟨by simp [stepPageActions, h], by simp [frameAfter, h]⟩
  · intro inject step fr a hmem sc hsc
    rcases hsc with ⟨sels, rfl⟩ | ⟨sel, rfl⟩
    · cases htype : step.type <;> simp [stepPageActions, htype] at hmem
      case click => exact hmem.1
      case type => exact hmem.1
      case select => exact hmem.1
      case check => exact hmem.1
      case upload => exact hmem.1
      case wait =>
        rcases hps : prioritizedSelectors step.selectors with _ | ⟨s0, srest⟩ <;>
          simp [hps] at hmem
        · cases hu : step.url <;> simp [hu] at hmem
        · by_cases hb : s0 = "body"
          · simp [hb] at hmem
            cases hu : step.url <;> simp [hu] at hmem
          · simp [hb] at hmem
    · cases htype : step.type <;> simp [stepPageActions, htype] at hmem
      case wait =>
        rcases hps : prioritizedSelectors step.selectors with _ | ⟨s0, srest⟩ <;>
          simp [hps] at hmem
        · cases hu : step.url <;> simp [hu] at hmem
        · by_cases hb : s0 = "body"
          · simp [hb] at hmem
            cases hu : step.url <;> simp [hu] at hmem
          · simp [hb] at hmem
            exact hmem.1
  · intro visF visP cfg f sels scope sel h
    simp only [resolveLocator] at h
    cases hres : resolveLocatorFrame visF f sels with
    | error e =>
      rw [hres] at h
      simp [Except.map] at h
    | ok s =>
      rw [hres] at h
      simp [Except.map] at h
      exact h.1.symm

/-- Witness for `frame_scope_semantics`: a concrete frame-switch step emits
no action and installs its frame selector. -/
theorem frame_scope_semantics_witness :
    frameStepDemo.type = StepType.frameSwitch ∧
    (stepPageActions (fun s => s) frameStepDemo none = [] ∧
      frameAfter frameStepDemo none = (match frameStepDemo.frameSelector with
        | some f => some f
        | none => frameStepDemo.selectors.css)) := by
  have h := frame_scope_semantics.1 (fun s => s) frameStepDemo none rfl
  exact ⟨rfl, h⟩

end SkillBrowser
